import Mathlib

/-!
Verification of the entity lifecycle and real-time synchronization core of
the `iot-security-dashboard` repository.

The repository's authoritative status vocabularies come from
`src/backend/sql/init.sql` (the `device_status`, `alert_status` and
`patch_status` enum types).  The lifecycle core itself (Lifecycle
Validator, Entity Store, Reconciliation Engine, Notification Dispatcher,
Aggregation View) is specified in the architecture document but is not
implemented under `src/`; those components are modelled here from the
spec's words, as indicated on each definition.  The client-side
projection stores (`src/frontend/src/store/deviceStore.js` and the alert
store) are embedded directly from the source.
-/

namespace IotDash

/-- `device_status` enum, from `src/backend/sql/init.sql` line 9. -/
inductive DeviceStatus
| online
| offline
| unknown
deriving DecidableEq, Repr, Fintype

/-- `alert_status` enum, from `src/backend/sql/init.sql` line 11.
The SQL label `open` is a Lean keyword, hence the quoted name. -/
inductive AlertStatus
| «open»
| investigating
| resolved
| false_positive
deriving DecidableEq, Repr, Fintype

/-- `patch_status` enum, from `src/backend/sql/init.sql` line 13. -/
inductive PatchStatus
| unpatched
| in_progress
| patched
| mitigated
deriving DecidableEq, Repr, Fintype

/-- Rejection reasons of the core's error taxonomy (spec §7). -/
inductive Reason
| invalid_transition
| stale_write
deriving DecidableEq, Repr

/-- Result of `validate_transition` (spec §4.1): `accept | reject(reason)`. -/
inductive VResult
| accept
| reject (reason : Reason)
deriving DecidableEq, Repr

/-- Modelled from the spec: §4.1 device status graph — cyclic, no terminal
state; any of {online, offline, unknown} may transition to any other.
No validator code exists under `src/`; only the enum type is declared in
`init.sql`. -/
def deviceTransitions : List (DeviceStatus × DeviceStatus) :=
  [(.online, .offline), (.online, .unknown),
   (.offline, .online), (.offline, .unknown),
   (.unknown, .online), (.unknown, .offline)]

/-- Modelled from the spec: §4.1 alert status graph — directed acyclic
progression with two terminal states. -/
def alertTransitions : List (AlertStatus × AlertStatus) :=
  [(.«open», .investigating), (.«open», .resolved), (.«open», .false_positive),
   (.investigating, .resolved), (.investigating, .false_positive)]

/-- Modelled from the spec: §4.1 vulnerability `patch_status` progression;
`patched` and `mitigated` are terminal. -/
def patchTransitions : List (PatchStatus × PatchStatus) :=
  [(.unpatched, .in_progress), (.unpatched, .patched), (.unpatched, .mitigated),
   (.in_progress, .patched), (.in_progress, .mitigated)]

/-- Modelled from the spec: §4.1 `validate_transition(current, proposed)`.
A proposed transition to the current status is accepted as a no-op; a pair
in the kind's enumerated transition set is accepted; anything else is
rejected with reason `invalid_transition`. -/
def validate_transition {α : Type} [DecidableEq α]
    (ts : List (α × α)) (current proposed : α) : VResult :=
  if proposed = current ∨ (current, proposed) ∈ ts then
    VResult.accept
  else
    VResult.reject Reason.invalid_transition

/-- Terminal alert statuses (spec §3, §4.1): `resolved` and `false_positive`. -/
def alertTerminal : AlertStatus → Bool
  | .resolved => true
  | .false_positive => true
  | _ => false

/-- Snapshot-plus-version record held by the Entity Store for one entity
(spec §3, §4.2).  `resolvedAt` is the optional terminal timestamp
(`resolved_at` of `alerts` in `init.sql`); kinds without such a timestamp
instantiate the terminal predicate to `fun _ => false`, keeping it `none`.
Timestamps are modelled as naturals. -/
structure EState (α : Type) where
  status : α
  resolvedAt : Option Nat
  version : Nat
deriving DecidableEq, Repr

/-- A proposed mutation (spec §6 `propose_mutation`): the proposed status,
the proposer's source version, and the mutation's timestamp. -/
structure Mutation (α : Type) where
  newStatus : α
  sourceVersion : Nat
  now : Nat
deriving DecidableEq, Repr

/-- Result of `apply` (spec §4.2): `Accepted(new_snapshot) | Rejected(reason)`. -/
inductive Outcome (α : Type)
| accepted (snap : EState α)
| rejected (reason : Reason)
deriving DecidableEq, Repr

/-- Full result of one `apply` call: the outcome, the store's state after
the call, and the event published to the Event Channel (`none` when the
mutation was rejected or was an accepted no-op self-transition). -/
structure ApplyOut (α : Type) where
  outcome : Outcome α
  state : EState α
  event : Option (EState α)
deriving DecidableEq, Repr

/-- Modelled from the spec: §4.2 Entity Store `apply`.  A mutation is
accepted only if the Validator accepts the status transition and the
mutation's source version is ≥ the store's current version (otherwise
`stale_write`).  On acceptance the version increments by exactly one and
the new snapshot is published — except for an accepted self-transition,
which emits no change event (§4.1).  `term` tells which statuses carry the
terminal timestamp: entering a terminal status sets `resolvedAt` (keeping
an already-set stamp), any other accepted status leaves it absent. -/
def apply {α : Type} [DecidableEq α] (ts : List (α × α)) (term : α → Bool)
    (st : EState α) (m : Mutation α) : ApplyOut α :=
  match validate_transition ts st.status m.newStatus with
  | VResult.reject r => ⟨Outcome.rejected r, st, none⟩
  | VResult.accept =>
    if st.version ≤ m.sourceVersion then
      let st' : EState α :=
        { status := m.newStatus
          resolvedAt := if term m.newStatus then some (st.resolvedAt.getD m.now) else none
          version := st.version + 1 }
      ⟨Outcome.accepted st', st', if m.newStatus = st.status then none else some st'⟩
    else
      ⟨Outcome.rejected Reason.stale_write, st, none⟩

/-- The store state after a sequence of `apply` calls on one entity
(spec §4.2: per-id `apply` calls are serialized, so a sequence is the
general case). -/
def run {α : Type} [DecidableEq α] (ts : List (α × α)) (term : α → Bool)
    (st : EState α) (ms : List (Mutation α)) : EState α :=
  ms.foldl (fun s m => (apply ts term s m).state) st

lemma apply_rejected_state_eq {α : Type} [DecidableEq α]
    (ts : List (α × α)) (term : α → Bool) (st : EState α) (m : Mutation α)
    (r : Reason) (h : (apply ts term st m).outcome = Outcome.rejected r) :
    (apply ts term st m).state = st := by
  unfold apply at *
  cases hv : validate_transition ts st.status m.newStatus with
  | accept =>
    rw [hv] at h
    by_cases hle : st.version ≤ m.sourceVersion
    · simp [hle] at h
    · simp [hle]
  | reject r' => simp

lemma apply_accepted_version {α : Type} [DecidableEq α]
    (ts : List (α × α)) (term : α → Bool) (st : EState α) (m : Mutation α)
    (snap : EState α) (h : (apply ts term st m).outcome = Outcome.accepted snap) :
    (apply ts term st m).state.version = st.version + 1 := by
  unfold apply at *
  cases hv : validate_transition ts st.status m.newStatus with
  | accept =>
    rw [hv] at h
    by_cases hle : st.version ≤ m.sourceVersion
    · simp [hle]
    · simp [hle] at h
  | reject r' =>
    rw [hv] at h
    simp at h

lemma apply_version_le {α : Type} [DecidableEq α]
    (ts : List (α × α)) (term : α → Bool) (st : EState α) (m : Mutation α) :
    st.version ≤ (apply ts term st m).state.version := by
  unfold apply
  cases hv : validate_transition ts st.status m.newStatus with
  | accept =>
    by_cases hle : st.version ≤ m.sourceVersion
    · simp [hle]
    · simp [hle]
  | reject r' => simp

lemma run_version_le {α : Type} [DecidableEq α]
    (ts : List (α × α)) (term : α → Bool) (st : EState α) (ms : List (Mutation α)) :
    st.version ≤ (run ts term st ms).version := by
  induction ms generalizing st with
  | nil => exact Nat.le_refl _
  | cons m rest ih =>
    exact Nat.le_trans (apply_version_le ts term st m) (ih _)

lemma apply_selfloop_event_none {α : Type} [DecidableEq α]
    (ts : List (α × α)) (term : α → Bool) (st : EState α) (m : Mutation α)
    (h : m.newStatus = st.status) : (apply ts term st m).event = none := by
  unfold apply
  cases hv : validate_transition ts st.status m.newStatus with
  | accept =>
    by_cases hle : st.version ≤ m.sourceVersion
    · simp [hle, h]
    · simp [hle]
  | reject r' => simp

lemma apply_rejected_event_none {α : Type} [DecidableEq α]
    (ts : List (α × α)) (term : α → Bool) (st : EState α) (m : Mutation α)
    (r : Reason) (h : (apply ts term st m).outcome = Outcome.rejected r) :
    (apply ts term st m).event = none := by
  unfold apply at *
  cases hv : validate_transition ts st.status m.newStatus with
  | accept =>
    rw [hv] at h
    by_cases hle : st.version ≤ m.sourceVersion
    · simp [hle] at h
    · simp [hle]
  | reject r' => simp

lemma apply_event_version {α : Type} [DecidableEq α]
    (ts : List (α × α)) (term : α → Bool) (st : EState α) (m : Mutation α)
    (ev : EState α) (h : (apply ts term st m).event = some ev) :
    ev.version = st.version + 1 ∧ ev = (apply ts term st m).state := by
  unfold apply at *
  cases hv : validate_transition ts st.status m.newStatus with
  | accept =>
    rw [hv] at h
    by_cases hle : st.version ≤ m.sourceVersion
    · by_cases hself : m.newStatus = st.status
      · simp [hle, hself] at h
      · simp [hle, hself] at h ⊢
        exact ⟨by rw [← h], h.symm⟩
    · simp [hle] at h
  | reject r' =>
    rw [hv] at h
    simp at h

/-! ### Reconciliation Engine (spec §4.4)

The Event Channel wire message carries the full new snapshot (spec §6);
the snapshot's `version` field is the event's version.  A projection is
the observer's local cache keyed by entity id. -/

/-- An `entity_changed` message on the Event Channel: entity id plus the
full new snapshot (spec §4.3, §6). -/
structure Event (α : Type) where
  id : Nat
  snap : EState α
deriving DecidableEq, Repr

/-- An observer's local projection, keyed by entity id (spec §4.4). -/
def Projection (α : Type) : Type := Nat → Option (EState α)

/-- Modelled from the spec: §4.4 steps 1–2 of the Reconciliation Engine.
If the event's version is ≤ the locally cached version for that id the
event is discarded silently; otherwise the snapshot is applied and the
local version updated.  No such version rule exists under `src/`
(`handleWebSocketMessage` in `src/frontend/src/services/websocket.js`
applies updates unconditionally); this definition follows the spec. -/
def applyEvent {α : Type} (p : Projection α) (e : Event α) : Projection α :=
  match p e.id with
  | some cached =>
    if e.snap.version ≤ cached.version then p
    else fun i => if i = e.id then some e.snap else p i
  | none => fun i => if i = e.id then some e.snap else p i

lemma applyEvent_stale {α : Type} (p : Projection α) (e : Event α)
    (cached : EState α) (hc : p e.id = some cached)
    (hle : e.snap.version ≤ cached.version) : applyEvent p e = p := by
  unfold applyEvent
  rw [hc]
  simp [hle]

/-- Modelled from the spec: §4.5 Notification Dispatcher.  The dispatcher
emits a signal exactly when the Reconciliation Engine forwards a freshly
applied event; a stale or duplicate event is discarded with no signal. -/
def signalCount {α : Type} (p : Projection α) (e : Event α) : Nat :=
  match p e.id with
  | some cached => if e.snap.version ≤ cached.version then 0 else 1
  | none => 1

/-- Modelled from the spec: §4.4 step 3.  On reconnect the observer issues
a full-resync fetch (the projection becomes the fetched baseline) and the
events buffered while the resync was in flight are then re-evaluated
against that baseline with the same version rule. -/
def resyncReplay {α : Type} (baseline : Projection α) (buf : List (Event α)) :
    Projection α :=
  buf.foldl applyEvent baseline

/-! ### Aggregation View (spec §4.6) -/

/-- One Entity Store entry used by the Aggregation View: entity id, owning
device id (spec §3: alerts and vulnerabilities are owned by exactly one
device), and the stored snapshot. -/
structure Entry (α : Type) where
  id : Nat
  deviceId : Nat
  st : EState α
deriving DecidableEq, Repr

/-- Modelled from the spec: routing one proposed mutation to the entity
with the given id (the store holds one snapshot per id, so the first match
is the entity) through the Entity Store `apply`.  Returns the updated
table and, when the mutation was accepted, the (before, after) status pair
and owning device id handed to the Aggregation View (§4.6). -/
def updateFirst {α : Type} [DecidableEq α] (ts : List (α × α)) (term : α → Bool)
    (l : List (Entry α)) (targetId : Nat) (m : Mutation α) :
    List (Entry α) × Option (α × α × Nat) :=
  match l with
  | [] => ([], none)
  | x :: rest =>
    if x.id = targetId then
      match (apply ts term x.st m).outcome with
      | Outcome.accepted _ =>
        ({ x with st := (apply ts term x.st m).state } :: rest,
         some (x.st.status, (apply ts term x.st m).state.status, x.deviceId))
      | Outcome.rejected _ => (x :: rest, none)
    else
      let p := updateFirst ts term rest targetId m
      (x :: p.1, p.2)

/-- Full rescan of the Entity Store: the number of entries owned by device
`d` whose status satisfies `counted` (spec §8, the rescan side of the
aggregation-correctness property). -/
def rescan {α : Type} (counted : α → Bool) (l : List (Entry α)) (d : Nat) : Nat :=
  l.countP (fun x => (x.deviceId == d) && counted x.st.status)

/-- Modelled from the spec: §4.6 incremental counter maintenance — each
accepted mutation adjusts exactly the counters affected by the
(before, after) status pair (decrement the old bucket, increment the new);
rejected mutations adjust nothing, and no rescan runs on this path. -/
def stepAgg {α : Type} (counted : α → Bool) (agg : Nat → Int)
    (delta : Option (α × α × Nat)) : Nat → Int :=
  match delta with
  | none => agg
  | some (before, after, dev) => fun d =>
      if dev = d then
        agg d - (if counted before then 1 else 0) + (if counted after then 1 else 0)
      else agg d

/-- The Aggregation View maintained alongside the Entity Store over a
sequence of (target id, mutation) pairs. -/
def runAgg {α : Type} [DecidableEq α] (ts : List (α × α)) (term : α → Bool)
    (counted : α → Bool) (s : List (Entry α)) (agg : Nat → Int)
    (muts : List (Nat × Mutation α)) : List (Entry α) × (Nat → Int) :=
  match muts with
  | [] => (s, agg)
  | (tid, m) :: rest =>
    let p := updateFirst ts term s tid m
    runAgg ts term counted p.1 (stepAgg counted agg p.2) rest

/-- Statuses counted by the per-device "open alert count" (spec §4.6:
status ≠ `resolved`/`false_positive`). -/
def alertCounted : AlertStatus → Bool
  | .«open» => true
  | .investigating => true
  | _ => false

/-- Statuses counted by the per-device "unpatched vulnerability count"
(spec §4.6: `patch_status` ≠ `patched`). -/
def vulnCounted : PatchStatus → Bool
  | .patched => false
  | _ => true

/-- The signed change that one store step contributes to device `d`'s
counter. -/
def deltaContrib {α : Type} (counted : α → Bool) (d : Nat)
    (delta : Option (α × α × Nat)) : Int :=
  match delta with
  | none => 0
  | some (before, after, dev) =>
    if dev = d then
      (if counted after then 1 else 0) - (if counted before then 1 else 0)
    else 0

/-- Modelled from the spec: a freshly created alert snapshot — status
`open`, `resolved_at` absent, version 1 (spec §3 and the §8 example
scenario; `init.sql` line 54: `status alert_status DEFAULT 'open'`, line
59: `resolved_at` nullable with no default). -/
def newAlert : EState AlertStatus :=
  ⟨AlertStatus.«open», none, 1⟩

/-! ### Client-side projection stores, embedded from the source -/

/-- A JSON-style field value of the client stores. -/
inductive JVal
| str (s : String)
| num (n : Int)
| boolVal (b : Bool)
| null
deriving DecidableEq, Repr

/-- A JavaScript object, as an association list of fields. -/
abbrev Obj : Type := List (String × JVal)

/-- Field access on an object: the first binding of the key, if any. -/
def getField (o : Obj) (k : String) : Option JVal :=
  match o with
  | [] => none
  | (k', v) :: rest => if k' = k then some v else getField rest k

/-- JavaScript object spread as used in the stores: the update object's
fields override the base object's fields. -/
def spread (d u : Obj) : Obj := u ++ d

/-- Embedded from `src/frontend/src/store/deviceStore.js` lines 18–22:
`updateDevice(deviceId, updates)` maps over the device list, replacing
each device whose `id` equals `deviceId` by the spread of the device with
the updates, and leaving every other device untouched. -/
def updateDevice (devices : List Obj) (deviceId : JVal) (updates : Obj) :
    List Obj :=
  devices.map (fun device =>
    if getField device "id" = some deviceId then spread device updates else device)

/-- Embedded from the alert store source (`src/unnamed/part_006` lines
18–22): `updateAlert(alertId, updates)`, identical in shape to
`updateDevice`. -/
def updateAlert (alerts : List Obj) (alertId : JVal) (updates : Obj) :
    List Obj :=
  alerts.map (fun alert =>
    if getField alert "id" = some alertId then spread alert updates else alert)

/-! ### Helper lemmas -/

lemma applyEvent_cached {α : Type} (p : Projection α) (e : Event α) :
    (applyEvent p e) e.id = some e.snap ∨ applyEvent p e = p := by
  unfold applyEvent
  cases hc : p e.id with
  | none => exact Or.inl (by simp)
  | some cached =>
    by_cases hle : e.snap.version ≤ cached.version
    · exact Or.inr (by simp [hle])
    · exact Or.inl (by simp [hle])

lemma alert_terminal_reject (c p : AlertStatus)
    (hc : alertTerminal c = true) (hp : p ≠ c) :
    validate_transition alertTransitions c p
      = VResult.reject Reason.invalid_transition := by
  revert hc hp
  revert c p
  decide

lemma apply_terminal_status (st : EState AlertStatus) (m : Mutation AlertStatus)
    (h : alertTerminal st.status = true) :
    (apply alertTransitions alertTerminal st m).state.status = st.status := by
  by_cases hself : m.newStatus = st.status
  · unfold apply
    cases hv : validate_transition alertTransitions st.status m.newStatus with
    | accept =>
      by_cases hle : st.version ≤ m.sourceVersion
      · simp [hle, hself]
      · simp [hle]
    | reject r' => simp
  · have hr := alert_terminal_reject st.status m.newStatus h hself
    unfold apply
    rw [hr]

lemma run_terminal_status (st : EState AlertStatus)
    (ms : List (Mutation AlertStatus)) (h : alertTerminal st.status = true) :
    (run alertTransitions alertTerminal st ms).status = st.status := by
  induction ms generalizing st with
  | nil => rfl
  | cons m rest ih =>
    have hs := apply_terminal_status st m h
    have h' : alertTerminal (apply alertTransitions alertTerminal st m).state.status
        = true := by rw [hs]; exact h
    calc (run alertTransitions alertTerminal st (m :: rest)).status
        = (run alertTransitions alertTerminal
            (apply alertTransitions alertTerminal st m).state rest).status := rfl
      _ = (apply alertTransitions alertTerminal st m).state.status := ih _ h'
      _ = st.status := hs

lemma apply_resolvedAt_inv (st : EState AlertStatus) (m : Mutation AlertStatus)
    (h : st.resolvedAt.isSome = alertTerminal st.status) :
    (apply alertTransitions alertTerminal st m).state.resolvedAt.isSome
      = alertTerminal (apply alertTransitions alertTerminal st m).state.status := by
  unfold apply
  cases hv : validate_transition alertTransitions st.status m.newStatus with
  | accept =>
    by_cases hle : st.version ≤ m.sourceVersion
    · cases halt : alertTerminal m.newStatus <;> simp [hle, halt]
    · simpa [hle] using h
  | reject r' => simpa using h

lemma stepAgg_eq {α : Type} (counted : α → Bool) (agg : Nat → Int)
    (delta : Option (α × α × Nat)) (d : Nat) :
    stepAgg counted agg delta d = agg d + deltaContrib counted d delta := by
  cases delta with
  | none => simp [stepAgg, deltaContrib]
  | some t =>
    obtain ⟨before, after, dev⟩ := t
    by_cases hdev : dev = d
    · simp only [stepAgg, deltaContrib, if_pos hdev]
      ring
    · simp [stepAgg, deltaContrib, hdev]

lemma rescan_updateFirst {α : Type} [DecidableEq α] (ts : List (α × α))
    (term : α → Bool) (counted : α → Bool) (l : List (Entry α))
    (targetId : Nat) (m : Mutation α) (d : Nat) :
    ((rescan counted (updateFirst ts term l targetId m).1 d : Int)) =
      (rescan counted l d : Int) +
        deltaContrib counted d (updateFirst ts term l targetId m).2 := by
  induction l with
  | nil => simp [updateFirst, rescan, deltaContrib]
  | cons x rest ih =>
    by_cases hid : x.id = targetId
    · cases ho : (apply ts term x.st m).outcome with
      | accepted snap =>
        simp only [updateFirst, if_pos hid, ho]
        simp only [rescan, List.countP_cons, deltaContrib]
        by_cases hdev : x.deviceId = d
        · cases hca : counted ((apply ts term x.st m).state.status) <;>
            cases hcb : counted x.st.status <;>
              simp [hdev, hca, hcb]
        · have hbeq : (x.deviceId == d) = false := by
            simpa using hdev
          simp [hbeq, hdev]
      | rejected r =>
        simp only [updateFirst, if_pos hid, ho]
        simp [deltaContrib]
    · simp only [updateFirst, if_neg hid]
      simp only [rescan, List.countP_cons] at ih ⊢
      push_cast at ih ⊢
      omega

lemma runAgg_correct {α : Type} [DecidableEq α] (ts : List (α × α))
    (term : α → Bool) (counted : α → Bool) :
    ∀ (muts : List (Nat × Mutation α)) (s : List (Entry α)) (agg : Nat → Int),
      (∀ d, agg d = (rescan counted s d : Int)) →
      ∀ d, (runAgg ts term counted s agg muts).2 d
          = (rescan counted (runAgg ts term counted s agg muts).1 d : Int) := by
  intro muts
  induction muts with
  | nil => exact fun s agg h d => h d
  | cons pm rest ih =>
    intro s agg h d
    obtain ⟨tid, m⟩ := pm
    simp only [runAgg]
    apply ih
    intro d'
    rw [stepAgg_eq, h d', rescan_updateFirst]

lemma map_update_id (l : List Obj) (f : Obj → Obj)
    (h : ∀ d ∈ l, f d = d) : l.map f = l := by
  induction l with
  | nil => rfl
  | cons x rest ih =>
    simp only [List.map_cons]
    rw [h x (List.mem_cons_self x rest),
      ih (fun d hd => h d (List.mem_cons_of_mem x hd))]

lemma getField_spread_none (d u : Obj) (k : String)
    (h : getField u k = none) : getField (spread d u) k = getField d k := by
  induction u with
  | nil => rfl
  | cons kv rest ih =>
    obtain ⟨k', v⟩ := kv
    unfold getField at h
    by_cases hk : k' = k
    · simp [hk] at h
    · have h' : getField rest k = none := by simpa [hk] using h
      have step : getField (spread d ((k', v) :: rest)) k
          = getField (spread d rest) k := by
        show getField ((k', v) :: (rest ++ d)) k = getField (rest ++ d) k
        rw [getField, if_neg hk]
      rw [step]
      exact ih h'

lemma run_resolvedAt_inv (st : EState AlertStatus)
    (ms : List (Mutation AlertStatus))
    (h : st.resolvedAt.isSome = alertTerminal st.status) :
    (run alertTransitions alertTerminal st ms).resolvedAt.isSome
      = alertTerminal (run alertTransitions alertTerminal st ms).status := by
  induction ms generalizing st with
  | nil => exact h
  | cons m rest ih => exact ih _ (apply_resolvedAt_inv st m h)

/-! ### Claim theorems -/

/-- C1: for each entity kind (device, alert, vulnerability),
`validate_transition(current, proposed)` accepts exactly when the pair is
in that kind's explicitly enumerated transition set or the proposed status
equals the current one; every other pair is rejected with reason
`invalid_transition`; and an accepted self-transition emits no change
event. -/
theorem C1_transition_soundness :
    (∀ c p : DeviceStatus,
        (validate_transition deviceTransitions c p = VResult.accept ↔
          ((c, p) ∈ deviceTransitions ∨ p = c)) ∧
        (¬((c, p) ∈ deviceTransitions ∨ p = c) →
          validate_transition deviceTransitions c p
            = VResult.reject Reason.invalid_transition)) ∧
    (∀ c p : AlertStatus,
        (validate_transition alertTransitions c p = VResult.accept ↔
          ((c, p) ∈ alertTransitions ∨ p = c)) ∧
        (¬((c, p) ∈ alertTransitions ∨ p = c) →
          validate_transition alertTransitions c p
            = VResult.reject Reason.invalid_transition)) ∧
    (∀ c p : PatchStatus,
        (validate_transition patchTransitions c p = VResult.accept ↔
          ((c, p) ∈ patchTransitions ∨ p = c)) ∧
        (¬((c, p) ∈ patchTransitions ∨ p = c) →
          validate_transition patchTransitions c p
            = VResult.reject Reason.invalid_transition)) ∧
    (∀ (st : EState DeviceStatus) (m : Mutation DeviceStatus),
        m.newStatus = st.status →
        (apply deviceTransitions (fun _ => false) st m).event = none) ∧
    (∀ (st : EState AlertStatus) (m : Mutation AlertStatus),
        m.newStatus = st.status →
        (apply alertTransitions alertTerminal st m).event = none) ∧
    (∀ (st : EState PatchStatus) (m : Mutation PatchStatus),
        m.newStatus = st.status →
        (apply patchTransitions (fun _ => false) st m).event = none) :=
  ⟨by decide, by decide, by decide,
   fun st m h => apply_selfloop_event_none _ _ st m h,
   fun st m h => apply_selfloop_event_none _ _ st m h,
   fun st m h => apply_selfloop_event_none _ _ st m h⟩

/-- Witness for C1 at concrete inputs: `resolved → open` is rejected with
`invalid_transition`, and an accepted self-transition
(`investigating → investigating`) publishes no event. -/
theorem C1_witness :
    validate_transition alertTransitions AlertStatus.resolved AlertStatus.«open»
        = VResult.reject Reason.invalid_transition ∧
    (apply alertTransitions alertTerminal
        ⟨AlertStatus.investigating, none, 4⟩
        ⟨AlertStatus.investigating, 4, 9⟩).event = none :=
  ⟨(C1_transition_soundness.2.1 AlertStatus.resolved AlertStatus.«open»).2
      (by decide),
   C1_transition_soundness.2.2.2.2.1 ⟨AlertStatus.investigating, none, 4⟩
      ⟨AlertStatus.investigating, 4, 9⟩ rfl⟩

/-- C2 counterexample: a proposed transition from the terminal status
`resolved` to `resolved` itself is accepted (as the spec's no-op
self-transition), and the store likewise accepts the corresponding
mutation — so it is not the case that every proposed transition out of a
terminal status is rejected. -/
theorem C2_counterexample :
    validate_transition alertTransitions AlertStatus.resolved
        AlertStatus.resolved = VResult.accept ∧
    (apply alertTransitions alertTerminal ⟨AlertStatus.resolved, some 3, 3⟩
        ⟨AlertStatus.resolved, 3, 7⟩).outcome
      = Outcome.accepted ⟨AlertStatus.resolved, some 3, 4⟩ := by
  constructor
  · decide
  · decide

/-- C2 (amended): for every alert in a terminal status (`resolved` or
`false_positive`), every proposed transition to a different status is
rejected with `invalid_transition`, and no sequence of mutations — in
particular no sequence of accepted ones — ever moves the alert out of its
terminal status. -/
theorem C2_terminal_closure :
    (∀ c p : AlertStatus, alertTerminal c = true → p ≠ c →
        validate_transition alertTransitions c p
          = VResult.reject Reason.invalid_transition) ∧
    (∀ (st : EState AlertStatus) (ms : List (Mutation AlertStatus)),
        alertTerminal st.status = true →
        (run alertTransitions alertTerminal st ms).status = st.status) :=
  ⟨alert_terminal_reject, fun st ms h => run_terminal_status st ms h⟩

/-- Witness for C2's amended theorem at a concrete resolved alert and a
concrete mutation sequence trying to reopen it. -/
theorem C2_witness :
    alertTerminal AlertStatus.resolved = true ∧
    (run alertTransitions alertTerminal ⟨AlertStatus.resolved, some 1, 3⟩
        [⟨AlertStatus.«open», 5, 9⟩, ⟨AlertStatus.investigating, 6, 9⟩]).status
      = AlertStatus.resolved :=
  ⟨rfl, C2_terminal_closure.2 ⟨AlertStatus.resolved, some 1, 3⟩
      [⟨AlertStatus.«open», 5, 9⟩, ⟨AlertStatus.investigating, 6, 9⟩] rfl⟩

/-- C3: an accepted mutation increases the entity's version by exactly
one, a rejected mutation leaves the version unchanged, and across any
sequence of `apply` calls the version never decreases. -/
theorem C3_version_monotonicity {α : Type} [DecidableEq α]
    (ts : List (α × α)) (term : α → Bool) :
    (∀ (st : EState α) (m : Mutation α) (snap : EState α),
        (apply ts term st m).outcome = Outcome.accepted snap →
        (apply ts term st m).state.version = st.version + 1) ∧
    (∀ (st : EState α) (m : Mutation α) (r : Reason),
        (apply ts term st m).outcome = Outcome.rejected r →
        (apply ts term st m).state.version = st.version) ∧
    (∀ (st : EState α) (ms : List (Mutation α)),
        st.version ≤ (run ts term st ms).version) :=
  ⟨fun st m snap h => apply_accepted_version ts term st m snap h,
   fun st m r h => by rw [apply_rejected_state_eq ts term st m r h],
   fun st ms => run_version_le ts term st ms⟩

/-- Witness for C3 at a concrete accepted mutation
(`open → investigating` with matching source version). -/
theorem C3_witness :
    (apply alertTransitions alertTerminal ⟨AlertStatus.«open», none, 1⟩
        ⟨AlertStatus.investigating, 1, 5⟩).outcome
      = Outcome.accepted ⟨AlertStatus.investigating, none, 2⟩ ∧
    (apply alertTransitions alertTerminal ⟨AlertStatus.«open», none, 1⟩
        ⟨AlertStatus.investigating, 1, 5⟩).state.version = 1 + 1 :=
  ⟨by decide,
   (C3_version_monotonicity alertTransitions alertTerminal).1 _ _
      ⟨AlertStatus.investigating, none, 2⟩ (by decide)⟩

/-- C4: reconciliation is idempotent — applying the same `entity_changed`
event twice in succession to a projection yields the same projection as
applying it once; in particular an event whose version is ≤ the locally
cached version for its id leaves the projection unchanged. -/
theorem C4_idempotent_reconciliation :
    (∀ (α : Type) (p : Projection α) (e : Event α),
        applyEvent (applyEvent p e) e = applyEvent p e) ∧
    (∀ (α : Type) (p : Projection α) (e : Event α) (cached : EState α),
        p e.id = some cached → e.snap.version ≤ cached.version →
        applyEvent p e = p) :=
  ⟨fun _ p e => by
      rcases applyEvent_cached p e with h | h
      · exact applyEvent_stale (applyEvent p e) e e.snap h (Nat.le_refl _)
      · simp only [h],
   fun _ p e cached hc hle => applyEvent_stale p e cached hc hle⟩

/-- Witness for C4 at a concrete projection: a duplicate event at version
2 against a cached version 3 leaves the projection unchanged. -/
theorem C4_witness :
    applyEvent
        (fun i => if i = 1 then
          some (⟨AlertStatus.investigating, none, 3⟩ : EState AlertStatus)
        else none)
        ⟨1, ⟨AlertStatus.investigating, none, 2⟩⟩
      = (fun i => if i = 1 then
          some (⟨AlertStatus.investigating, none, 3⟩ : EState AlertStatus)
        else none) :=
  C4_idempotent_reconciliation.2 AlertStatus _ _
    ⟨AlertStatus.investigating, none, 3⟩ rfl (by decide)

/-- C5: rejected mutations and accepted no-op self-transitions publish no
event at all (hence can never produce a signal); an event published for an
accepted, non-no-op change delivered to an observer holding at most the
pre-mutation version yields exactly one signal; and a stale or duplicate
delivery — in particular one at a version the observer already holds —
produces no signal. -/
theorem C5_dispatch_exactly_once :
    (∀ (α : Type) [DecidableEq α] (ts : List (α × α)) (term : α → Bool)
        (st : EState α) (m : Mutation α) (r : Reason),
        (apply ts term st m).outcome = Outcome.rejected r →
        (apply ts term st m).event = none) ∧
    (∀ (α : Type) [DecidableEq α] (ts : List (α × α)) (term : α → Bool)
        (st : EState α) (m : Mutation α),
        m.newStatus = st.status → (apply ts term st m).event = none) ∧
    (∀ (α : Type) [DecidableEq α] (ts : List (α × α)) (term : α → Bool)
        (st : EState α) (m : Mutation α) (ev : EState α) (i : Nat)
        (p : Projection α) (cached : EState α),
        (apply ts term st m).event = some ev →
        p i = some cached → cached.version ≤ st.version →
        signalCount p ⟨i, ev⟩ = 1) ∧
    (∀ (α : Type) (p : Projection α) (e : Event α) (cached : EState α),
        p e.id = some cached → e.snap.version ≤ cached.version →
        signalCount p e = 0) := by
  refine ⟨?_, ?_, ?_, ?_⟩
  · intro α _ ts term st m r h
    exact apply_rejected_event_none ts term st m r h
  · intro α _ ts term st m h
    exact apply_selfloop_event_none ts term st m h
  · intro α _ ts term st m ev i p cached hev hp hle
    have hv := (apply_event_version ts term st m ev hev).1
    unfold signalCount
    rw [hp]
    have hnot : ¬ ev.version ≤ cached.version := by omega
    simp [hnot]
  · intro α p e cached hp hle
    unfold signalCount
    rw [hp]
    simp [hle]

/-- Witness for C5 at concrete inputs: the event published for the
accepted transition `investigating → resolved` (version 3 → 4) yields one
signal for an observer at version 3, and a duplicate delivery of a
version-3 event to an observer already at version 3 yields none. -/
theorem C5_witness :
    signalCount
        (fun i => if i = 1 then
          some (⟨AlertStatus.investigating, none, 3⟩ : EState AlertStatus)
        else none)
        ⟨1, ⟨AlertStatus.resolved, some 10, 4⟩⟩ = 1 ∧
    signalCount
        (fun i => if i = 1 then
          some (⟨AlertStatus.investigating, none, 3⟩ : EState AlertStatus)
        else none)
        ⟨1, ⟨AlertStatus.investigating, none, 3⟩⟩ = 0 :=
  ⟨C5_dispatch_exactly_once.2.2.1 AlertStatus alertTransitions alertTerminal
      ⟨AlertStatus.investigating, none, 3⟩ ⟨AlertStatus.resolved, 3, 10⟩
      ⟨AlertStatus.resolved, some 10, 4⟩ 1 _
      ⟨AlertStatus.investigating, none, 3⟩ (by decide) rfl (by decide),
   C5_dispatch_exactly_once.2.2.2 AlertStatus _ _
      ⟨AlertStatus.investigating, none, 3⟩ rfl (by decide)⟩

/-- C6: events published by the Entity Store never carry a version above
the store's resulting version (so events buffered during a resync are
stale against the resynced baseline), and replaying any such buffered
events over the resync-fetched baseline leaves the observer projection
exactly equal to the Entity Store's state. -/
theorem C6_resync_convergence :
    (∀ (α : Type) [DecidableEq α] (ts : List (α × α)) (term : α → Bool)
        (st : EState α) (m : Mutation α) (ev : EState α),
        (apply ts term st m).event = some ev →
        ev.version ≤ (apply ts term st m).state.version) ∧
    (∀ (α : Type) (store : Projection α) (buf : List (Event α)),
        (∀ e ∈ buf, ∃ cached, store e.id = some cached ∧
            e.snap.version ≤ cached.version) →
        resyncReplay store buf = store) := by
  constructor
  · intro α _ ts term st m ev hev
    rw [(apply_event_version ts term st m ev hev).2]
  · intro α store buf
    induction buf with
    | nil => intro _; rfl
    | cons e rest ih =>
      intro h
      obtain ⟨cached, hc, hle⟩ := h e (List.mem_cons_self e rest)
      have hstep : resyncReplay store (e :: rest)
          = resyncReplay (applyEvent store e) rest := rfl
      rw [hstep, applyEvent_stale store e cached hc hle]
      exact ih (fun e' he' => h e' (List.mem_cons_of_mem e he'))

/-- Witness for C6: a resynced baseline at version 5 absorbs a buffered
version-4 event without change. -/
theorem C6_witness :
    resyncReplay
        (fun i => if i = 1 then
          some (⟨AlertStatus.resolved, some 2, 5⟩ : EState AlertStatus)
        else none)
        [⟨1, ⟨AlertStatus.investigating, none, 4⟩⟩]
      = (fun i => if i = 1 then
          some (⟨AlertStatus.resolved, some 2, 5⟩ : EState AlertStatus)
        else none) :=
  C6_resync_convergence.2 AlertStatus _ _
    (fun e he => by
      have he' : e = ⟨1, ⟨AlertStatus.investigating, none, 4⟩⟩ := by
        simpa using he
      subst he'
      exact ⟨⟨AlertStatus.resolved, some 2, 5⟩, rfl, by decide⟩)

/-- C7: for every sequence of alert (resp. vulnerability) mutations, the
incrementally maintained per-device count of alerts with status not in
{resolved, false_positive} (resp. vulnerabilities with patch status ≠
patched) equals the count obtained by a full rescan of the Entity Store,
at every point of the sequence. -/
theorem C7_aggregation_correctness :
    (∀ (s : List (Entry AlertStatus)) (agg : Nat → Int)
        (muts : List (Nat × Mutation AlertStatus)),
        (∀ d, agg d = (rescan alertCounted s d : Int)) →
        ∀ d, (runAgg alertTransitions alertTerminal alertCounted s agg muts).2 d
            = (rescan alertCounted
                (runAgg alertTransitions alertTerminal alertCounted
                  s agg muts).1 d : Int)) ∧
    (∀ (s : List (Entry PatchStatus)) (agg : Nat → Int)
        (muts : List (Nat × Mutation PatchStatus)),
        (∀ d, agg d = (rescan vulnCounted s d : Int)) →
        ∀ d, (runAgg patchTransitions (fun _ => false) vulnCounted
                s agg muts).2 d
            = (rescan vulnCounted
                (runAgg patchTransitions (fun _ => false) vulnCounted
                  s agg muts).1 d : Int)) :=
  ⟨fun s agg muts h => runAgg_correct _ _ _ muts s agg h,
   fun s agg muts h => runAgg_correct _ _ _ muts s agg h⟩

/-- Witness for C7: one open alert on device 7, resolved by an accepted
mutation; the incremental counter still equals the rescan afterwards. -/
theorem C7_witness :
    (runAgg alertTransitions alertTerminal alertCounted
        [⟨1, 7, ⟨AlertStatus.«open», none, 1⟩⟩]
        (fun d =>
          (rescan alertCounted [⟨1, 7, ⟨AlertStatus.«open», none, 1⟩⟩] d : Int))
        [(1, ⟨AlertStatus.resolved, 1, 9⟩)]).2 7
      = (rescan alertCounted
          (runAgg alertTransitions alertTerminal alertCounted
            [⟨1, 7, ⟨AlertStatus.«open», none, 1⟩⟩]
            (fun d =>
              (rescan alertCounted
                [⟨1, 7, ⟨AlertStatus.«open», none, 1⟩⟩] d : Int))
            [(1, ⟨AlertStatus.resolved, 1, 9⟩)]).1 7 : Int) :=
  C7_aggregation_correctness.1 _ _ _ (fun _ => rfl) 7

/-- C8: rejection is atomic — whenever `apply` rejects a mutation
(`invalid_transition` or `stale_write`), the stored snapshot and its
version after the call are identical to their values before the call. -/
theorem C8_rejection_atomicity :
    ∀ (α : Type) [DecidableEq α] (ts : List (α × α)) (term : α → Bool)
      (st : EState α) (m : Mutation α) (r : Reason),
      (apply ts term st m).outcome = Outcome.rejected r →
      (apply ts term st m).state = st ∧
      (apply ts term st m).state.version = st.version :=
  fun _ _ ts term st m r h =>
    ⟨apply_rejected_state_eq ts term st m r h,
     by rw [apply_rejected_state_eq ts term st m r h]⟩

/-- Witness for C8 at both rejection reasons: reopening a resolved alert
(`invalid_transition`) and a stale write (source version 3 < store
version 5) both leave the snapshot untouched. -/
theorem C8_witness :
    (apply alertTransitions alertTerminal ⟨AlertStatus.resolved, some 2, 5⟩
        ⟨AlertStatus.«open», 9, 9⟩).state
      = ⟨AlertStatus.resolved, some 2, 5⟩ ∧
    (apply alertTransitions alertTerminal ⟨AlertStatus.«open», none, 5⟩
        ⟨AlertStatus.investigating, 3, 9⟩).state
      = ⟨AlertStatus.«open», none, 5⟩ :=
  ⟨(C8_rejection_atomicity AlertStatus alertTransitions alertTerminal _ _
      Reason.invalid_transition (by decide)).1,
   (C8_rejection_atomicity AlertStatus alertTransitions alertTerminal _ _
      Reason.stale_write (by decide)).1⟩

/-- C9: a freshly created alert has status `open` and no `resolved_at`,
the invariant "`resolved_at` present iff status ∈ {resolved,
false_positive}" holds at creation, and it is preserved by every `apply`
call and hence by every sequence of them. -/
theorem C9_resolved_at_invariant :
    (newAlert.status = AlertStatus.«open» ∧ newAlert.resolvedAt = none ∧
      newAlert.resolvedAt.isSome = alertTerminal newAlert.status) ∧
    (∀ (st : EState AlertStatus) (m : Mutation AlertStatus),
        st.resolvedAt.isSome = alertTerminal st.status →
        (apply alertTransitions alertTerminal st m).state.resolvedAt.isSome
          = alertTerminal
              (apply alertTransitions alertTerminal st m).state.status) ∧
    (∀ (st : EState AlertStatus) (ms : List (Mutation AlertStatus)),
        st.resolvedAt.isSome = alertTerminal st.status →
        (run alertTransitions alertTerminal st ms).resolvedAt.isSome
          = alertTerminal (run alertTransitions alertTerminal st ms).status) :=
  ⟨⟨rfl, rfl, rfl⟩, apply_resolvedAt_inv, run_resolvedAt_inv⟩

/-- Witness for C9: the §8 example scenario — created open, moved to
investigating, then resolved; the invariant holds at the end. -/
theorem C9_witness :
    (run alertTransitions alertTerminal newAlert
        [⟨AlertStatus.investigating, 1, 5⟩,
         ⟨AlertStatus.resolved, 2, 8⟩]).resolvedAt.isSome
      = alertTerminal (run alertTransitions alertTerminal newAlert
        [⟨AlertStatus.investigating, 1, 5⟩,
         ⟨AlertStatus.resolved, 2, 8⟩]).status :=
  C9_resolved_at_invariant.2.2 newAlert
    [⟨AlertStatus.investigating, 1, 5⟩, ⟨AlertStatus.resolved, 2, 8⟩] rfl

/-- C10: `updateDevice(id, updates)` (and likewise `updateAlert`) leaves
every element whose `id` field differs from the given id exactly
unchanged; the matched element becomes its spread with the updates, on
which every field not named in the updates keeps its previous value; and
when no element has the given id the whole list is returned unchanged. -/
theorem C10_update_frame :
    (∀ (l : List Obj) (i : JVal) (u : Obj) (n : Nat) (d : Obj),
        l[n]? = some d → getField d "id" ≠ some i →
        (updateDevice l i u)[n]? = some d) ∧
    (∀ (l : List Obj) (i : JVal) (u : Obj) (n : Nat) (d : Obj),
        l[n]? = some d → getField d "id" = some i →
        (updateDevice l i u)[n]? = some (spread d u)) ∧
    (∀ (d u : Obj) (k : String), getField u k = none →
        getField (spread d u) k = getField d k) ∧
    (∀ (l : List Obj) (i : JVal) (u : Obj),
        (∀ d ∈ l, getField d "id" ≠ some i) → updateDevice l i u = l) ∧
    (∀ (l : List Obj) (i : JVal) (u : Obj) (n : Nat) (d : Obj),
        l[n]? = some d → getField d "id" ≠ some i →
        (updateAlert l i u)[n]? = some d) ∧
    (∀ (l : List Obj) (i : JVal) (u : Obj) (n : Nat) (d : Obj),
        l[n]? = some d → getField d "id" = some i →
        (updateAlert l i u)[n]? = some (spread d u)) ∧
    (∀ (l : List Obj) (i : JVal) (u : Obj),
        (∀ d ∈ l, getField d "id" ≠ some i) → updateAlert l i u = l) := by
  refine ⟨?_, ?_, ?_, ?_, ?_, ?_, ?_⟩
  · intro l i u n d hd hne
    unfold updateDevice
    rw [List.getElem?_map, hd]
    simp [hne]
  · intro l i u n d hd hid
    unfold updateDevice
    rw [List.getElem?_map, hd]
    simp [hid]
  · intro d u k h
    exact getField_spread_none d u k h
  · intro l i u h
    unfold updateDevice
    exact map_update_id l _ (fun d hd => if_neg (h d hd))
  · intro l i u n d hd hne
    unfold updateAlert
    rw [List.getElem?_map, hd]
    simp [hne]
  · intro l i u n d hd hid
    unfold updateAlert
    rw [List.getElem?_map, hd]
    simp [hid]
  · intro l i u h
    unfold updateAlert
    exact map_update_id l _ (fun d hd => if_neg (h d hd))

/-- Witness for C10 at a concrete two-device list: an update addressed to
id 2 leaves the id-1 device at position 0 unchanged; a spread whose
updates do not name `id` keeps the old `id`; an update addressed to a
missing id leaves the alert list unchanged. -/
theorem C10_witness :
    (updateDevice
        [[("id", JVal.num 1), ("status", JVal.str "online")],
         [("id", JVal.num 2), ("status", JVal.str "offline")]]
        (JVal.num 2) [("status", JVal.str "unknown")])[0]?
      = some [("id", JVal.num 1), ("status", JVal.str "online")] ∧
    getField (spread [("id", JVal.num 1), ("status", JVal.str "online")]
        [("status", JVal.str "unknown")]) "id"
      = getField [("id", JVal.num 1), ("status", JVal.str "online")] "id" ∧
    updateAlert
        [[("id", JVal.num 1), ("status", JVal.str "online")],
         [("id", JVal.num 2), ("status", JVal.str "offline")]]
        (JVal.num 5) [("status", JVal.str "unknown")]
      = [[("id", JVal.num 1), ("status", JVal.str "online")],
         [("id", JVal.num 2), ("status", JVal.str "offline")]] :=
  ⟨C10_update_frame.1 _ _ _ 0 _ rfl (by decide),
   C10_update_frame.2.2.1 _ _ "id" (by decide),
   C10_update_frame.2.2.2.2.2.2 _ _ _ (by decide)⟩

end IotDash
